import Mathlib

/-!
Shallow embedding of the overlap-detection engine of MBES-lib
(`src/geometry/HullOverlap.hpp`) and proofs about it.

Coordinates (`float` / `double` in the C++ source) are modelled as
rational numbers; machine floating point rounding is outside the scope of
the properties treated here, which concern the control flow and the exact
comparison logic of the algorithms.

External capabilities (the PCL concave hull reconstruction, the PCL
point-in-polygon classifier, the floating square root used by vector
normalisation) are not code of this repository; they are modelled as
abstract function parameters gathered in `Externals`.

The C++ functions `computeVerticesOfHullAndrews` (HullOverlap.hpp lines
803-858) declare their loop counters without initialising them
(`for ( uint64_t count; count < ...; count++ )`).  The value such a counter
starts from is indeterminate; the embedding makes that explicit by taking
those start values as parameters (`AndrewsUB`), so that the behaviour of
the code is a function of the indeterminates.
-/

namespace HullOverlapModel

attribute [local semireducible] Rat.add Rat.sub Rat.mul Rat.inv

set_option maxRecDepth 8000

/-- `PointAndrews` of HullOverlap.hpp (lines 47-57): a 2D point together
with the index it held in the input sequence. -/
structure PointAndrews where
  x : ℚ
  y : ℚ
  index : Nat
deriving DecidableEq

instance : Inhabited PointAndrews := ⟨⟨0, 0, 0⟩⟩

/-- `cross` of HullOverlap.hpp (lines 64-67): z-component of the 2D cross
product of OA and OB; positive for a counter-clockwise turn, negative for
clockwise, zero for collinear points. -/
def cross (O A B : PointAndrews) : ℚ :=
  (A.x - O.x) * (B.y - O.y) - (A.y - O.y) * (B.x - O.x)

/-- The strict lexicographic order `operator<` of `PointAndrews`
(HullOverlap.hpp lines 53-56). -/
def pointAndrewsLt (p q : PointAndrews) : Prop :=
  p.x < q.x ∨ (p.x = q.x ∧ p.y < q.y)

/-- One insertion step of the sort used to model `std::sort` with the
`PointAndrews` comparator.  A point is inserted before the first point it
does not compare strictly greater than. -/
def insertPA (p : PointAndrews) : List PointAndrews → List PointAndrews
  | [] => [p]
  | q :: rest =>
    if p.x < q.x ∨ (p.x = q.x ∧ p.y ≤ q.y) then p :: q :: rest
    else q :: insertPA p rest

/-- Model of the `sort(points.begin(), points.end())` call of
`AndrewsConvex_hull` (HullOverlap.hpp line 91): a sort consistent with the
strict lexicographic comparator (ties between equal coordinate pairs are
left in an order `std::sort` is also free to produce). -/
def sortPA (ps : List PointAndrews) : List PointAndrews :=
  ps.foldr insertPA []

/-- The inner `while (k >= 2/t && cross( hull[k-2], hull[k-1], candidate ) <= 0) k--;`
loop of `AndrewsConvex_hull` (lines 96-97 and 105-106), acting on the chain
stack held most-recent-first: pop the top while the last two accepted
vertices and the candidate fail to make a strict counter-clockwise turn. -/
def popBad (s : List PointAndrews) (p : PointAndrews) : List PointAndrews :=
  match s with
  | b :: a :: rest => if cross a b p ≤ 0 then popBad (a :: rest) p else b :: a :: rest
  | _ => s

/-- One iteration of a chain-building loop of `AndrewsConvex_hull`:
pop the failing vertices, then `hull[k++] = candidate`. -/
def chainStep (s : List PointAndrews) (p : PointAndrews) : List PointAndrews :=
  p :: popBad s p

/-- A full chain-building loop of `AndrewsConvex_hull` over a candidate
sequence, returning the accepted vertices in chain order.  The lower hull
is `buildChain sorted`; the upper hull loop (lines 103-109), which walks
the sorted points backwards and whose floor `t = k+1` protects exactly the
vertices of the lower chain, is `buildChain sorted.reverse`. -/
def buildChain (ps : List PointAndrews) : List PointAndrews :=
  (ps.foldl chainStep []).reverse

/-- `AndrewsConvex_hull` of HullOverlap.hpp (lines 72-113).  For at most 3
points the input is returned unchanged (lines 78-86).  Otherwise the
points are sorted lexicographically, the lower chain and then the upper
chain are built on a shared array, and the final `hull.resize(k-1)` drops
the duplicated closing vertex (the leftmost point, pushed again at the end
of the upper loop).  The array contents equal the lower chain followed by
the upper chain without its first vertex (the rightmost point, already the
last vertex of the lower chain). -/
def AndrewsConvex_hull (points : List PointAndrews) : List PointAndrews :=
  if points.length ≤ 3 then points
  else
    let sorted := sortPA points
    let lower := buildChain sorted
    let upper := buildChain sorted.reverse
    (lower ++ upper.tail).dropLast

/-- Three vertices appearing consecutively, in this order, somewhere in a
list. -/
def Adjacent3 (l : List PointAndrews) (a b c : PointAndrews) : Prop :=
  ∃ u v, l = u ++ a :: b :: c :: v

/-- Every three consecutive vertices of the list make a strict
counter-clockwise turn (in particular no three consecutive vertices are
collinear). -/
def chainStrict (l : List PointAndrews) : Prop :=
  ∀ a b c, Adjacent3 l a b c → 0 < cross a b c

/-- Invariant of a chain stack held most-recent-first: every three
consecutive entries, read from the bottom of the stack upwards, make a
strict counter-clockwise turn. -/
def stackOK (s : List PointAndrews) : Prop :=
  ∀ a b c, Adjacent3 s c b a → 0 < cross a b c

theorem adjacent3_append_left {t l : List PointAndrews} {a b c : PointAndrews}
    (h : Adjacent3 l a b c) : Adjacent3 (t ++ l) a b c := by
  obtain ⟨u, v, huv⟩ := h
  exact ⟨t ++ u, v, by rw [huv, List.append_assoc]⟩

theorem popBad_suffix (p : PointAndrews) :
    ∀ s : List PointAndrews, ∃ t, s = t ++ popBad s p := by
  intro s
  induction s with
  | nil => exact ⟨[], rfl⟩
  | cons b s' ih =>
    cases s' with
    | nil => exact ⟨[], rfl⟩
    | cons a rest =>
      by_cases h : cross a b p ≤ 0
      · obtain ⟨t, ht⟩ := ih
        refine ⟨b :: t, ?_⟩
        have hrw : popBad (b :: a :: rest) p = popBad (a :: rest) p := by
          simp [popBad, h]
        rw [hrw, List.cons_append, ← ht]
      · have hrw : popBad (b :: a :: rest) p = b :: a :: rest := by
          simp [popBad, h]
        exact ⟨[], by rw [hrw]; rfl⟩

theorem popBad_head2 (p : PointAndrews) :
    ∀ (s : List PointAndrews) (b a : PointAndrews) (rest : List PointAndrews),
      popBad s p = b :: a :: rest → 0 < cross a b p := by
  intro s
  induction s with
  | nil => intro b a rest h; simp [popBad] at h
  | cons y s' ih =>
    cases s' with
    | nil => intro b a rest h; simp [popBad] at h
    | cons x rest' =>
      intro b a rest h
      by_cases hc : cross x y p ≤ 0
      · have hrw : popBad (y :: x :: rest') p = popBad (x :: rest') p := by
          simp [popBad, hc]
        rw [hrw] at h
        exact ih b a rest h
      · have hrw : popBad (y :: x :: rest') p = y :: x :: rest' := by
          simp [popBad, hc]
        rw [hrw] at h
        obtain ⟨h1, h2, h3⟩ : y = b ∧ x = a ∧ rest' = rest := by
          injection h with h1 h23
          injection h23 with h2 h3
          exact ⟨h1, h2, h3⟩
        subst h1; subst h2
        exact lt_of_not_le hc

theorem stackOK_popBad {s : List PointAndrews} (p : PointAndrews)
    (hs : stackOK s) : stackOK (popBad s p) := by
  intro a b c h
  obtain ⟨t, ht⟩ := popBad_suffix p s
  exact hs a b c (ht ▸ adjacent3_append_left h)

theorem stackOK_chainStep {s : List PointAndrews} (p : PointAndrews)
    (hs : stackOK s) : stackOK (chainStep s p) := by
  intro a b c hadj
  obtain ⟨u, v, huv⟩ := hadj
  cases u with
  | nil =>
    simp only [chainStep, List.nil_append, List.cons.injEq] at huv
    obtain ⟨h1, h2⟩ := huv
    subst h1
    exact popBad_head2 p s b a v h2
  | cons q u' =>
    simp only [chainStep, List.cons_append, List.cons.injEq] at huv
    exact stackOK_popBad p hs a b c ⟨u', v, huv.2⟩

theorem stackOK_nil : stackOK ([] : List PointAndrews) := by
  rintro a b c ⟨u, v, huv⟩
  exact absurd huv.symm (by simp)

theorem stackOK_foldl :
    ∀ (ps : List PointAndrews) (s : List PointAndrews),
      stackOK s → stackOK (ps.foldl chainStep s) := by
  intro ps
  induction ps with
  | nil => intro s hs; exact hs
  | cons p ps' ih =>
    intro s hs
    exact ih (chainStep s p) (stackOK_chainStep p hs)

theorem adjacent3_reverse_mp {l : List PointAndrews} {a b c : PointAndrews}
    (h : Adjacent3 l.reverse a b c) : Adjacent3 l c b a := by
  obtain ⟨u, v, huv⟩ := h
  refine ⟨v.reverse, u.reverse, ?_⟩
  have hrev := congrArg List.reverse huv
  rw [List.reverse_reverse] at hrev
  rw [hrev]
  simp

theorem chainStrict_buildChain (ps : List PointAndrews) :
    chainStrict (buildChain ps) := by
  intro a b c h
  exact stackOK_foldl ps [] stackOK_nil a b c (adjacent3_reverse_mp h)

/-- Claim C5 (amended): for every input with more than 3 points, every
three consecutive vertices within the lower chain, and every three
consecutive vertices within the upper chain, of `AndrewsConvex_hull` make
a strict counter-clockwise turn (no three consecutive collinear vertices
within a chain), and the returned hull is the lower chain followed by the
upper chain without its first vertex, with the duplicated closing vertex
dropped.  The cyclic closure of the full returned list can, for degenerate
inputs such as an all-collinear point set, still contain collinear triples
(see the counterexample). -/
theorem c5_chains_strict (ps : List PointAndrews) (h : 3 < ps.length) :
    chainStrict (buildChain (sortPA ps)) ∧
    chainStrict (buildChain (sortPA ps).reverse) ∧
    AndrewsConvex_hull ps =
      (buildChain (sortPA ps) ++ (buildChain (sortPA ps).reverse).tail).dropLast := by
  refine ⟨chainStrict_buildChain _, chainStrict_buildChain _, ?_⟩
  unfold AndrewsConvex_hull
  rw [if_neg (by omega)]

/-- Concrete five-point input used to exercise the hull. -/
def pa5 : List PointAndrews :=
  [⟨0, 0, 0⟩, ⟨3, 0, 1⟩, ⟨0, 3, 2⟩, ⟨3, 3, 3⟩, ⟨1, 1, 4⟩]

/-- Witness for `c5_chains_strict` at the concrete input `pa5`. -/
theorem c5_chains_strict_witness :
    3 < pa5.length ∧
    (chainStrict (buildChain (sortPA pa5)) ∧
      chainStrict (buildChain (sortPA pa5).reverse) ∧
      AndrewsConvex_hull pa5 =
        (buildChain (sortPA pa5) ++ (buildChain (sortPA pa5).reverse).tail).dropLast) :=
  ⟨by decide, c5_chains_strict pa5 (by decide)⟩

/-- The property claimed by C5 as stated: reading the returned vertex list
cyclically, no three consecutive vertices are collinear. -/
def strictlyConvexCyclic (l : List PointAndrews) : Prop :=
  ∀ i < l.length,
    cross (l.getD i default) (l.getD ((i + 1) % l.length) default)
      (l.getD ((i + 2) % l.length) default) ≠ 0

/-- Four collinear input points (more than 3 points). -/
def collinear4 : List PointAndrews :=
  [⟨0, 0, 0⟩, ⟨1, 0, 1⟩, ⟨2, 0, 2⟩, ⟨3, 0, 3⟩]

/-- Claim C5 counterexample: on four collinear points (an input of more
than 3 points) `AndrewsConvex_hull` returns the two extreme points, and
the cyclically closed vertex list has three consecutive collinear
vertices, so the hull is not strictly convex in the claimed sense. -/
theorem c5_cyclic_counterexample :
    3 < collinear4.length ∧
    ¬ strictlyConvexCyclic (AndrewsConvex_hull collinear4) := by
  constructor
  · decide
  · unfold strictlyConvexCyclic
    decide

/-- Claim C8: for every input 2D point sequence with at most 3 points,
`AndrewsConvex_hull` returns exactly that sequence: same points, same
multiplicity, original input order, no deduplication (HullOverlap.hpp
lines 78-86). -/
theorem c8_small_input_returned (ps : List PointAndrews) (h : ps.length ≤ 3) :
    AndrewsConvex_hull ps = ps := by
  unfold AndrewsConvex_hull
  rw [if_pos h]

/-- Concrete three-point input containing a duplicated coordinate pair. -/
def pa3 : List PointAndrews :=
  [⟨1, 1, 0⟩, ⟨1, 1, 1⟩, ⟨2, 0, 2⟩]

/-- Witness for `c8_small_input_returned` at the concrete input `pa3`. -/
theorem c8_small_input_returned_witness :
    pa3.length ≤ 3 ∧ AndrewsConvex_hull pa3 = pa3 :=
  ⟨by decide, c8_small_input_returned pa3 (by decide)⟩

/-- `pcl::PointXYZ`: a 3D point with rational coordinates (the source uses
`float`). -/
structure Pt3 where
  x : ℚ
  y : ℚ
  z : ℚ
deriving DecidableEq

instance : Inhabited Pt3 := ⟨⟨0, 0, 0⟩⟩

/-- A 3D vector (`Eigen::Vector3d` in the source). -/
structure Vec3 where
  x : ℚ
  y : ℚ
  z : ℚ
deriving DecidableEq

/-- The external capabilities the engine delegates to.  None of them is
code of this repository: `sqrtQ` models the floating square root used by
`Eigen` norms, `concaveHullVerts` and `concaveHullIdx` model
`pcl::ConcaveHull` reconstruction and its hull point indices (the spec
treats the concave strategy as a black box), and `inPoly` models
`pcl::isXYPointIn2DXYPolygon`. -/
structure Externals where
  sqrtQ : ℚ → ℚ
  concaveHullVerts : List Pt3 → ℚ → List Pt3
  concaveHullIdx : List Pt3 → ℚ → List Nat
  inPoly : Pt3 → List Pt3 → Bool

/-- The configuration held by a `HullOverlap` object: the two lines, the
plane coefficients, the hull method string and the two alpha parameters
(HullOverlap.hpp lines 137-160 and the member variables). -/
structure HullOverlapCfg where
  line1 : List Pt3
  line2 : List Pt3
  a : ℚ
  b : ℚ
  c : ℚ
  d : ℚ
  hullMethod : String
  alphaLine1 : ℚ
  alphaLine2 : ℚ
deriving DecidableEq

/-- The valid hull method string `"PCL ConcaveHull"`. -/
def methodConcaveName : String := "PCL ConcaveHull"

/-- The valid hull method string for the Andrews monotone chain
(written with an escaped apostrophe). -/
def methodAndrewsName : String := "Andrew\x27s"

/-- Modelled from the spec: the external `pcl::ProjectInliers` plane
filter used by `createCloudFromProjectionInPlane` (spec section 4.1
PlaneProjector) computes the orthogonal projection of a point onto the
plane a x + b y + c z + d = 0. -/
def projectPointOnPlane (a b c d : ℚ) (p : Pt3) : Pt3 :=
  let t := (a * p.x + b * p.y + c * p.z + d) / (a * a + b * b + c * c)
  ⟨p.x - t * a, p.y - t * b, p.z - t * c⟩

/-- `createCloudFromProjectionInPlane` of HullOverlap.hpp (lines 661-675):
projects every point of the input cloud onto the configured plane,
preserving length and order. -/
def createCloudFromProjectionInPlane (a b c d : ℚ) (cloudIn : List Pt3) : List Pt3 :=
  cloudIn.map (projectPointOnPlane a b c d)

/-- The basis produced by `computeTwoVectorsAndRefPoint`: a reference
point and two vectors spanning the projection plane. -/
structure PlaneBasis where
  refPoint : Pt3
  vector1 : Vec3
  vector2 : Vec3
deriving DecidableEq

/-- The unnormalised `vector1` of `computeTwoVectorsAndRefPoint`
(HullOverlap.hpp lines 696-698): from the first projected point of line 1
to the last. -/
def vector1BeforeNormalization (line1InPlane : List Pt3) : Vec3 :=
  let p0 := line1InPlane.getD 0 default
  let pLast := line1InPlane.getD (line1InPlane.length - 1) default
  ⟨pLast.x - p0.x, pLast.y - p0.y, pLast.z - p0.z⟩

/-- `v = v / v.norm()` with the floating square root modelled by `sq`.
No zero check is made, mirroring the source. -/
def normalizeVec (sq : ℚ → ℚ) (v : Vec3) : Vec3 :=
  let n := sq (v.x * v.x + v.y * v.y + v.z * v.z)
  ⟨v.x / n, v.y / n, v.z / n⟩

/-- The Eigen cross product used for `vector2` (HullOverlap.hpp line 713). -/
def crossVec3 (u v : Vec3) : Vec3 :=
  ⟨u.y * v.z - u.z * v.y, u.z * v.x - u.x * v.z, u.x * v.y - u.y * v.x⟩

/-- `computeTwoVectorsAndRefPoint` of HullOverlap.hpp (lines 682-724).
The reference point is `line1InPlane->points[ 0 ]`; on an empty cloud that
access is out of bounds, modelled as `none`.  Otherwise the function
performs no degeneracy check whatsoever: `vector1` is normalised by its
norm even when that norm is zero (division by zero, NaN in the C++), and
a basis is always returned. -/
def computeTwoVectorsAndRefPoint (ext : Externals) (a b c : ℚ)
    (line1InPlane : List Pt3) : Option PlaneBasis :=
  match line1InPlane with
  | [] => none
  | p0 :: _ =>
    let v1 := normalizeVec ext.sqrtQ (vector1BeforeNormalization line1InPlane)
    let v2 := normalizeVec ext.sqrtQ (crossVec3 ⟨a, b, c⟩ v1)
    some ⟨p0, v1, v2⟩

/-- `createCloudInPlane2D` of HullOverlap.hpp (lines 733-761): every
projected point is expressed in the 2D frame by dot products with
`vector1` and `vector2` relative to `refPoint`; the z coordinate is set
to 0. -/
def createCloudInPlane2D (basis : PlaneBasis) (cloudIn : List Pt3) : List Pt3 :=
  cloudIn.map fun q =>
    ⟨(q.x - basis.refPoint.x) * basis.vector1.x
        + (q.y - basis.refPoint.y) * basis.vector1.y
        + (q.z - basis.refPoint.z) * basis.vector1.z,
      (q.x - basis.refPoint.x) * basis.vector2.x
        + (q.y - basis.refPoint.y) * basis.vector2.y
        + (q.z - basis.refPoint.z) * basis.vector2.z,
      0⟩

/-- The indeterminate start values of the three uninitialised loop
counters of `computeVerticesOfHullAndrews` (HullOverlap.hpp lines 813,
834 and 853: `for ( uint64_t count; ... )` with no initialiser). -/
structure AndrewsUB where
  c0 : Nat
  c1 : Nat
  c2 : Nat
deriving DecidableEq

/-- `computeVerticesOfHullAndrews` of HullOverlap.hpp (lines 803-858).
The three loops run their counters from the indeterminate start values
`ub.c0`, `ub.c1`, `ub.c2` up to the respective sizes (an uninitialised
`uint64_t count` in the source).  The first loop builds `PointAndrews`
values carrying their position in `cloudIn`, the second copies the hull
vertices, and the third, only when `keepInformation` is true, overwrites
the member index list with the hull point indices (otherwise the member
`oldIndices` is left unchanged). -/
def computeVerticesOfHullAndrews (ub : AndrewsUB) (cloudIn : List Pt3)
    (oldIndices : List Nat) (keepInformation : Bool) : List Pt3 × List Nat :=
  let points := ((List.range cloudIn.length).drop ub.c0).map
    (fun i => PointAndrews.mk (cloudIn.getD i default).x (cloudIn.getD i default).y i)
  let hullAndrews := AndrewsConvex_hull points
  let hullVertices := (hullAndrews.drop ub.c1).map (fun p => Pt3.mk p.x p.y 0)
  let hullPointIndices :=
    if keepInformation then (hullAndrews.drop ub.c2).map (fun p => p.index)
    else oldIndices
  (hullVertices, hullPointIndices)

/-- `findPointsInHull` of HullOverlap.hpp (lines 872-890): walk the 2D
cloud, test each point against the hull, and collect both the original
line point and its index for every hit. -/
def findPointsInHull (ext : Externals) (lineOriginal cloudIn hullVertices : List Pt3) :
    List Pt3 × List Nat :=
  let idx := (List.range cloudIn.length).filter
    (fun i => ext.inPoly (cloudIn.getD i default) hullVertices)
  (idx.map (fun i => lineOriginal.getD i default), idx)

/-- `findPointsInHullOnlyPointIndices` of HullOverlap.hpp (lines 900-912):
collect only the indices of the 2D points inside the hull. -/
def findPointsInHullOnlyPointIndices (ext : Externals) (cloudIn hullVertices : List Pt3) :
    List Nat :=
  (List.range cloudIn.length).filter
    (fun i => ext.inPoly (cloudIn.getD i default) hullVertices)

/-- `findPointsInHullOnlyPoints` of HullOverlap.hpp (lines 922-935):
collect only the original line points whose 2D image is inside the hull. -/
def findPointsInHullOnlyPoints (ext : Externals) (lineOriginal cloudIn hullVertices : List Pt3) :
    List Pt3 :=
  ((List.range cloudIn.length).filter
    (fun i => ext.inPoly (cloudIn.getD i default) hullVertices)).map
    (fun i => lineOriginal.getD i default)

/-- The observable result of one `computeHullsAndPointsInBothHulls` call:
the returned count pair, the final contents of the two caller-supplied
output clouds (`none` models a null pointer argument), the overlap index
member lists and the hull vertex index member lists after the call. -/
structure EngineResult where
  counts : Nat × Nat
  cloud1 : Option (List Pt3)
  cloud2 : Option (List Pt3)
  idx1 : List Nat
  idx2 : List Nat
  hullIdx1 : List Nat
  hullIdx2 : List Nat
deriving DecidableEq

/-- How a call to the engine can end: normally, by `exit( 1 )` on an
invalid hull method (HullOverlap.hpp line 297), or in undefined behaviour
from the out-of-bounds `points[ 0 ]` access of
`computeTwoVectorsAndRefPoint` on an empty line 1. -/
inductive EngineOutcome where
  | ok (r : EngineResult)
  | exitProcess (code : Nat)
  | outOfBounds
deriving DecidableEq

/-- The classification phase of `computeHullsAndPointsInBothHulls`
(HullOverlap.hpp lines 312-383): if both output clouds were supplied, fill
them (and, in full mode only, the overlap index lists); otherwise compute
only the overlap index lists, and return their sizes as the counts. -/
def classifyAndCollect (ext : Externals) (line1 line2 line1InPlane2D line2InPlane2D : List Pt3)
    (hull1 hull2 : List Pt3) (hullIdx1 hullIdx2 : List Nat)
    (cloud1Given cloud2Given minimalMemory : Bool) : EngineResult :=
  if cloud1Given && cloud2Given then
    if minimalMemory then
      let c1 := findPointsInHullOnlyPoints ext line1 line1InPlane2D hull2
      let c2 := findPointsInHullOnlyPoints ext line2 line2InPlane2D hull1
      { counts := (c1.length, c2.length), cloud1 := some c1, cloud2 := some c2,
        idx1 := [], idx2 := [], hullIdx1 := hullIdx1, hullIdx2 := hullIdx2 }
    else
      let r1 := findPointsInHull ext line1 line1InPlane2D hull2
      let r2 := findPointsInHull ext line2 line2InPlane2D hull1
      { counts := (r1.1.length, r2.1.length), cloud1 := some r1.1, cloud2 := some r2.1,
        idx1 := r1.2, idx2 := r2.2, hullIdx1 := hullIdx1, hullIdx2 := hullIdx2 }
  else
    let i1 := findPointsInHullOnlyPointIndices ext line1InPlane2D hull2
    let i2 := findPointsInHullOnlyPointIndices ext line2InPlane2D hull1
    { counts := (i1.length, i2.length),
      cloud1 := if cloud1Given then some [] else none,
      cloud2 := if cloud2Given then some [] else none,
      idx1 := i1, idx2 := i2, hullIdx1 := hullIdx1, hullIdx2 := hullIdx2 }

/-- `computeHullsAndPointsInBothHulls` of HullOverlap.hpp (lines 204-386).
`cloud1Given` and `cloud2Given` record whether the caller passed non-null
output cloud pointers (those clouds are cleared at entry, so their
starting contents never matter).  Line 1 is projected, the shared 2D basis
is derived from it (out of bounds on an empty line 1), both lines are
flattened to 2D, the per-line hulls are computed by the configured method
(an unrecognised method reaches the `exit( 1 )` branch of line 297), and
the points of each line are classified against the hull of the other. -/
def computeHullsAndPointsInBothHulls (ext : Externals) (cfg : HullOverlapCfg)
    (ub1 ub2 : AndrewsUB) (cloud1Given cloud2Given : Bool)
    (minimalMemory : Bool) : EngineOutcome :=
  let line1InPlane := createCloudFromProjectionInPlane cfg.a cfg.b cfg.c cfg.d cfg.line1
  match computeTwoVectorsAndRefPoint ext cfg.a cfg.b cfg.c line1InPlane with
  | none => EngineOutcome.outOfBounds
  | some basis =>
    let line1InPlane2D := createCloudInPlane2D basis line1InPlane
    let line2InPlane := createCloudFromProjectionInPlane cfg.a cfg.b cfg.c cfg.d cfg.line2
    let line2InPlane2D := createCloudInPlane2D basis line2InPlane
    if cfg.hullMethod = methodConcaveName then
      let h1 := ext.concaveHullVerts line1InPlane2D cfg.alphaLine1
      let hi1 := if minimalMemory then [] else ext.concaveHullIdx line1InPlane2D cfg.alphaLine1
      let h2 := ext.concaveHullVerts line2InPlane2D cfg.alphaLine2
      let hi2 := if minimalMemory then [] else ext.concaveHullIdx line2InPlane2D cfg.alphaLine2
      EngineOutcome.ok (classifyAndCollect ext cfg.line1 cfg.line2 line1InPlane2D line2InPlane2D
        h1 h2 hi1 hi2 cloud1Given cloud2Given minimalMemory)
    else if cfg.hullMethod = methodAndrewsName then
      let r1 := computeVerticesOfHullAndrews ub1 line1InPlane2D [] (!minimalMemory)
      let r2 := computeVerticesOfHullAndrews ub2 line2InPlane2D [] (!minimalMemory)
      EngineOutcome.ok (classifyAndCollect ext cfg.line1 cfg.line2 line1InPlane2D line2InPlane2D
        r1.1 r2.1 r1.2 r2.2 cloud1Given cloud2Given minimalMemory)
    else
      EngineOutcome.exitProcess 1

/-- The part of an engine outcome the mode-equivalence claim compares: the
count pair and the two output cloud contents. -/
def observableOutput (o : EngineOutcome) :
    Option ((Nat × Nat) × Option (List Pt3) × Option (List Pt3)) :=
  match o with
  | EngineOutcome.ok r => some (r.counts, r.cloud1, r.cloud2)
  | _ => none

theorem classifyAndCollect_observable (ext : Externals)
    (l1 l2 p1 p2 h1 h2 : List Pt3) (hi1 hi2 hi1' hi2' : List Nat) (g1 g2 : Bool) :
    observableOutput (EngineOutcome.ok
        (classifyAndCollect ext l1 l2 p1 p2 h1 h2 hi1 hi2 g1 g2 true)) =
      observableOutput (EngineOutcome.ok
        (classifyAndCollect ext l1 l2 p1 p2 h1 h2 hi1' hi2' g1 g2 false)) := by
  cases g1 <;> cases g2 <;> rfl

/-- Claim C1: for every pair of input lines, plane, hull method (and every
resolution of the uninitialised counters and of the external
capabilities, kept identical across both runs),
`computeHullsAndPointsInBothHulls` with `minimalMemory = true` produces
the same count pair and the same output cloud contents per line as with
`minimalMemory = false`. -/
theorem c1_mode_equivalence (ext : Externals) (cfg : HullOverlapCfg)
    (ub1 ub2 : AndrewsUB) (cloud1Given cloud2Given : Bool) :
    observableOutput
        (computeHullsAndPointsInBothHulls ext cfg ub1 ub2 cloud1Given cloud2Given true) =
      observableOutput
        (computeHullsAndPointsInBothHulls ext cfg ub1 ub2 cloud1Given cloud2Given false) := by
  simp only [computeHullsAndPointsInBothHulls]
  cases computeTwoVectorsAndRefPoint ext cfg.a cfg.b cfg.c
      (createCloudFromProjectionInPlane cfg.a cfg.b cfg.c cfg.d cfg.line1) with
  | none => rfl
  | some basis =>
    by_cases hc : cfg.hullMethod = methodConcaveName
    · simp only [hc, if_true, eq_self_iff_true]
      exact classifyAndCollect_observable _ _ _ _ _ _ _ _ _ _ _ _ _
    · by_cases ha : cfg.hullMethod = methodAndrewsName
      · simp only [hc, ha, if_false, if_true, eq_self_iff_true]
        exact classifyAndCollect_observable _ _ _ _ _ _ _ _ _ _ _ _ _
      · simp only [hc, ha, if_false]

/-- Concrete externals used by the closed evaluation theorems: the square
root and classifier values are irrelevant to the structural facts being
evaluated. -/
def ext0 : Externals :=
  { sqrtQ := fun q => q,
    concaveHullVerts := fun _ _ => [],
    concaveHullIdx := fun _ _ => [],
    inPoly := fun _ _ => false }

/-- A 2D cloud of the four corners of a square plus an interior point. -/
def cloud5 : List Pt3 := [⟨0, 0, 0⟩, ⟨3, 0, 0⟩, ⟨0, 3, 0⟩, ⟨3, 3, 0⟩, ⟨1, 1, 0⟩]

/-- Claim C2 (code bug evaluation): with the uninitialised loop counters
of `computeVerticesOfHullAndrews` starting at 0, 0 and 1 (a residual value
of 1 for the third loop counter), the function returns 4 hull vertices
but only 3 recorded indices, and the recorded index list `[1, 3, 2]`
pairs the first vertex (0,0) with index 1, which names the input point
(3,0): the index list is neither parallel nor traceable.  With all three
counters starting at 0 (the evident intent) the recorded indices
`[0, 1, 3, 2]` are correct. -/
theorem c2_uninitialized_counter_eval :
    (computeVerticesOfHullAndrews ⟨0, 0, 1⟩ cloud5 [] true).1.length = 4 ∧
    (computeVerticesOfHullAndrews ⟨0, 0, 1⟩ cloud5 [] true).2 = [1, 3, 2] ∧
    (computeVerticesOfHullAndrews ⟨0, 0, 0⟩ cloud5 [] true).2 = [0, 1, 3, 2] := by
  refine ⟨by decide, by decide, by decide⟩

/-- A line 1 whose first and last points coincide: the degenerate basis
case of the spec. -/
def degenLine1 : List Pt3 := [⟨1, 2, 0⟩, ⟨1, 2, 0⟩]

/-- Configuration with the degenerate line 1, the plane z = 0 and the
Andrews hull method. -/
def cfgDegen : HullOverlapCfg :=
  { line1 := degenLine1, line2 := [⟨0, 0, 0⟩], a := 0, b := 0, c := 1, d := 0,
    hullMethod := methodAndrewsName, alphaLine1 := 1, alphaLine2 := 1 }

/-- Claim C3 (code bug evaluation): on a line 1 whose first and last
projected points coincide, the unnormalised `vector1` is the zero vector
(its norm is zero, so the C++ division `vector1 / vector1.norm()`
produces NaN components), yet `computeTwoVectorsAndRefPoint` still
returns a basis, and the whole engine call still completes normally: no
degenerate-basis error is raised to the caller. -/
theorem c3_no_degenerate_basis_error :
    vector1BeforeNormalization degenLine1 = ⟨0, 0, 0⟩ ∧
    (computeTwoVectorsAndRefPoint ext0 0 0 1 degenLine1).isSome = true ∧
    (observableOutput
        (computeHullsAndPointsInBothHulls ext0 cfgDegen ⟨0, 0, 0⟩ ⟨0, 0, 0⟩
          true true false)).isSome = true := by
  refine ⟨by decide, by decide, by decide⟩

/-- How the `HullOverlap` constructor can end: normally, or by
`exit( 1 )` (HullOverlap.hpp line 172). -/
inductive CtorOutcome where
  | ok (cfg : HullOverlapCfg)
  | exitProcess (code : Nat)
deriving DecidableEq

/-- The `HullOverlap` constructor (HullOverlap.hpp lines 137-177): if the
hull method string is neither of the two valid selectors, it prints a
message and calls `exit( 1 )`, terminating the process; otherwise it
stores the configuration. -/
def hullOverlapConstructor (line1 line2 : List Pt3) (a b c d : ℚ)
    (hullMethod : String) (alphaLine1 alphaLine2 : ℚ) : CtorOutcome :=
  if hullMethod ≠ methodConcaveName ∧ hullMethod ≠ methodAndrewsName then
    CtorOutcome.exitProcess 1
  else
    CtorOutcome.ok
      { line1 := line1, line2 := line2, a := a, b := b, c := c, d := d,
        hullMethod := hullMethod, alphaLine1 := alphaLine1, alphaLine2 := alphaLine2 }

/-- Configuration carrying an invalid hull method string. -/
def cfgBadMethod : HullOverlapCfg :=
  { line1 := [⟨0, 0, 0⟩, ⟨1, 0, 0⟩], line2 := [], a := 0, b := 0, c := 1, d := 0,
    hullMethod := "convex", alphaLine1 := 1, alphaLine2 := 1 }

/-- Claim C4 (code bug evaluation): for the invalid hull method string
"convex", the constructor ends in `exit( 1 )` (process termination), and
so does `computeHullsAndPointsInBothHulls` when it reaches its own method
dispatch: no error value is returned to the immediate caller. -/
theorem c4_invalid_method_terminates_process :
    hullOverlapConstructor [] [] 0 0 1 0 "convex" 1 1 = CtorOutcome.exitProcess 1 ∧
    computeHullsAndPointsInBothHulls ext0 cfgBadMethod ⟨0, 0, 0⟩ ⟨0, 0, 0⟩ true true false =
      EngineOutcome.exitProcess 1 := by
  refine ⟨by decide, by decide⟩

/-- Configuration whose line 1 is empty. -/
def cfgEmptyLine1 : HullOverlapCfg :=
  { line1 := [], line2 := [⟨0, 0, 0⟩], a := 0, b := 0, c := 1, d := 0,
    hullMethod := methodAndrewsName, alphaLine1 := 1, alphaLine2 := 1 }

/-- Claim C6 counterexample: with an empty line 1 (a pair of input lines
where at least one line is empty), the engine does not complete: the
reference point access `line1InPlane->points[ 0 ]` of
`computeTwoVectorsAndRefPoint` is out of bounds, so no count pair is
produced at all. -/
theorem c6_empty_line1_counterexample :
    computeHullsAndPointsInBothHulls ext0 cfgEmptyLine1 ⟨0, 0, 0⟩ ⟨0, 0, 0⟩ true true false =
      EngineOutcome.outOfBounds := by
  decide

theorem classifyAndCollect_empty_line2 (ext : Externals) (l1 l2 p1 : List Pt3)
    (h1 h2 : List Pt3) (hi1 hi2 : List Nat) (g1 g2 mm : Bool) :
    (classifyAndCollect ext l1 l2 p1 [] h1 h2 hi1 hi2 g1 g2 mm).counts.2 = 0 := by
  unfold classifyAndCollect
  cases hg : g1 && g2 <;> cases mm <;>
    simp [findPointsInHull, findPointsInHullOnlyPoints, findPointsInHullOnlyPointIndices]

/-- Claim C6 (amended): when line 2 is empty and line 1 is non-empty, for
either valid hull method and either memory mode, the engine completes and
the overlap count reported for the empty line 2 is zero.  (An empty
line 1 instead makes the basis construction read out of bounds; see the
counterexample.) -/
theorem c6_empty_line2_zero_overlap (ext : Externals) (cfg : HullOverlapCfg)
    (ub1 ub2 : AndrewsUB) (g1 g2 mm : Bool)
    (h2 : cfg.line2 = []) (h1 : cfg.line1 ≠ [])
    (hm : cfg.hullMethod = methodConcaveName ∨ cfg.hullMethod = methodAndrewsName) :
    ∃ r, computeHullsAndPointsInBothHulls ext cfg ub1 ub2 g1 g2 mm = EngineOutcome.ok r ∧
      r.counts.2 = 0 := by
  obtain ⟨p0, l1', hl⟩ : ∃ p0 l1', cfg.line1 = p0 :: l1' := by
    cases hcl : cfg.line1 with
    | nil => exact absurd hcl h1
    | cons p0 l1' => exact ⟨p0, l1', rfl⟩
  simp only [computeHullsAndPointsInBothHulls]
  rw [hl, h2]
  rcases hm with hmc | hma
  · rw [hmc]
    simp only [createCloudFromProjectionInPlane, List.map_cons, List.map_nil,
      computeTwoVectorsAndRefPoint, createCloudInPlane2D, if_pos, eq_self_iff_true, if_true]
    exact ⟨_, rfl, classifyAndCollect_empty_line2 _ _ _ _ _ _ _ _ _ _ _⟩
  · rw [hma]
    simp only [createCloudFromProjectionInPlane, List.map_cons, List.map_nil,
      computeTwoVectorsAndRefPoint, createCloudInPlane2D]
    rw [if_pos trivial]
    exact ⟨_, rfl, classifyAndCollect_empty_line2 _ _ _ _ _ _ _ _ _ _ _⟩

/-- Configuration for the C6 witness: one point on line 1, empty line 2. -/
def cfg6 : HullOverlapCfg :=
  { line1 := [⟨0, 0, 0⟩, ⟨1, 0, 0⟩], line2 := [], a := 0, b := 0, c := 1, d := 0,
    hullMethod := methodAndrewsName, alphaLine1 := 1, alphaLine2 := 1 }

/-- Witness for `c6_empty_line2_zero_overlap` at a concrete input. -/
theorem c6_empty_line2_zero_overlap_witness :
    cfg6.line2 = [] ∧ cfg6.line1 ≠ [] ∧
    (∃ r, computeHullsAndPointsInBothHulls ext0 cfg6 ⟨0, 0, 0⟩ ⟨0, 0, 0⟩ true true false =
        EngineOutcome.ok r ∧ r.counts.2 = 0) :=
  ⟨rfl, by decide,
    c6_empty_line2_zero_overlap ext0 cfg6 ⟨0, 0, 0⟩ ⟨0, 0, 0⟩ true true false rfl
      (by decide) (Or.inr rfl)⟩

theorem classifyAndCollect_not_both (ext : Externals) (l1 l2 p1 p2 : List Pt3)
    (h1 h2 : List Pt3) (hi1 hi2 : List Nat) (g1 g2 mm : Bool)
    (hg : (g1 && g2) = false) :
    classifyAndCollect ext l1 l2 p1 p2 h1 h2 hi1 hi2 g1 g2 mm =
      { counts := ((findPointsInHullOnlyPointIndices ext p1 h2).length,
          (findPointsInHullOnlyPointIndices ext p2 h1).length),
        cloud1 := if g1 then some [] else none,
        cloud2 := if g2 then some [] else none,
        idx1 := findPointsInHullOnlyPointIndices ext p1 h2,
        idx2 := findPointsInHullOnlyPointIndices ext p2 h1,
        hullIdx1 := hi1, hullIdx2 := hi2 } := by
  unfold classifyAndCollect
  rw [hg]
  rfl

/-- Claim C10: if exactly one of the two output cloud arguments is null,
a normally completing `computeHullsAndPointsInBothHulls` call leaves the
non-null cloud cleared and empty, the null one untouched, and returns the
sizes of the two per-line overlap index lists as the count pair. -/
theorem c10_single_null_cloud (ext : Externals) (cfg : HullOverlapCfg)
    (ub1 ub2 : AndrewsUB) (g1 g2 mm : Bool) (hne : g1 ≠ g2) (r : EngineResult)
    (h : computeHullsAndPointsInBothHulls ext cfg ub1 ub2 g1 g2 mm = EngineOutcome.ok r) :
    r.cloud1 = (if g1 then some [] else none) ∧
    r.cloud2 = (if g2 then some [] else none) ∧
    r.counts = (r.idx1.length, r.idx2.length) := by
  have hg : (g1 && g2) = false := by
    cases g1 <;> cases g2 <;> simp_all
  simp only [computeHullsAndPointsInBothHulls] at h
  cases hbasis : computeTwoVectorsAndRefPoint ext cfg.a cfg.b cfg.c
      (createCloudFromProjectionInPlane cfg.a cfg.b cfg.c cfg.d cfg.line1) with
  | none =>
    rw [hbasis] at h
    exact absurd h (by simp)
  | some basis =>
    rw [hbasis] at h
    by_cases hc : cfg.hullMethod = methodConcaveName
    · simp only [hc, if_true, eq_self_iff_true] at h
      rw [classifyAndCollect_not_both _ _ _ _ _ _ _ _ _ _ _ _ hg] at h
      have hr := ((EngineOutcome.ok.injEq _ _).mp h).symm
      subst hr
      exact ⟨rfl, rfl, rfl⟩
    · by_cases ha : cfg.hullMethod = methodAndrewsName
      · have hmc : ¬(methodAndrewsName = methodConcaveName) := by decide
        simp only [ha, hmc, if_false, if_true, eq_self_iff_true] at h
        rw [classifyAndCollect_not_both _ _ _ _ _ _ _ _ _ _ _ _ hg] at h
        have hr := ((EngineOutcome.ok.injEq _ _).mp h).symm
        subst hr
        exact ⟨rfl, rfl, rfl⟩
      · simp only [hc, ha, if_false] at h
        exact absurd h (by simp)

/-- Configuration for the C10 witness. -/
def cfg10 : HullOverlapCfg :=
  { line1 := [⟨0, 0, 0⟩], line2 := [], a := 0, b := 0, c := 1, d := 0,
    hullMethod := methodAndrewsName, alphaLine1 := 1, alphaLine2 := 1 }

/-- The engine result of the C10 witness run. -/
def r10 : EngineResult :=
  { counts := (0, 0), cloud1 := some [], cloud2 := none,
    idx1 := [], idx2 := [], hullIdx1 := [0], hullIdx2 := [] }

/-- Witness for `c10_single_null_cloud` at a concrete input with the
first output cloud given and the second null. -/
theorem c10_single_null_cloud_witness :
    (true ≠ false) ∧
    computeHullsAndPointsInBothHulls ext0 cfg10 ⟨0, 0, 0⟩ ⟨0, 0, 0⟩ true false false =
      EngineOutcome.ok r10 ∧
    (r10.cloud1 = (if true then some [] else none) ∧
      r10.cloud2 = (if false then some [] else none) ∧
      r10.counts = (r10.idx1.length, r10.idx2.length)) :=
  ⟨by decide, by decide,
    c10_single_null_cloud ext0 cfg10 ⟨0, 0, 0⟩ ⟨0, 0, 0⟩ true false false (by decide) r10
      (by decide)⟩

/-- The member state of a `HullOverlap` object read by the accessors and
the bounding-box queries (HullOverlap.hpp lines 973-1002). -/
structure HullOverlapState where
  line1InBothHullPointIndices : List Nat
  line2InBothHullPointIndices : List Nat
  line1InPlane2D : List Pt3
  line2InPlane2D : List Pt3
  line1InPlane : List Pt3
  line2InPlane : List Pt3
  hull1PointIndices : List Nat
  hull2PointIndices : List Nat
deriving DecidableEq

/-- `getConstPtrlineInBothHullPointIndices` (HullOverlap.hpp lines
391-410): returns null for a line number outside 0..1, otherwise a
pointer to the overlap index list of the selected line. -/
def getConstPtrlineInBothHullPointIndices (s : HullOverlapState) (lineNumber : Int) :
    Option (List Nat) :=
  if lineNumber < 0 ∨ lineNumber > 1 then none
  else if lineNumber = 0 then some s.line1InBothHullPointIndices
  else some s.line2InBothHullPointIndices

/-- `getConstPtrlineInPlane2D` (HullOverlap.hpp lines 413-432). -/
def getConstPtrlineInPlane2D (s : HullOverlapState) (lineNumber : Int) :
    Option (List Pt3) :=
  if lineNumber < 0 ∨ lineNumber > 1 then none
  else if lineNumber = 0 then some s.line1InPlane2D
  else some s.line2InPlane2D

/-- `getConstPtrlineInPlane3D` (HullOverlap.hpp lines 436-450). -/
def getConstPtrlineInPlane3D (s : HullOverlapState) (lineNumber : Int) :
    Option (List Pt3) :=
  if lineNumber < 0 ∨ lineNumber > 1 then none
  else if lineNumber = 0 then some s.line1InPlane
  else some s.line2InPlane

/-- `getConstPtrVerticesIndices` (HullOverlap.hpp lines 453-466). -/
def getConstPtrVerticesIndices (s : HullOverlapState) (lineNumber : Int) :
    Option (List Nat) :=
  if lineNumber < 0 ∨ lineNumber > 1 then none
  else if lineNumber = 0 then some s.hull1PointIndices
  else some s.hull2PointIndices

/-- `getNbPointsInOverlap` (HullOverlap.hpp lines 615-629): for a line
number outside 0..1 it prints a message and returns 0, a plain `uint64_t`
value; otherwise the size of the overlap index list of the selected
line. -/
def getNbPointsInOverlap (s : HullOverlapState) (lineNumber : Int) : Nat :=
  if lineNumber < 0 ∨ lineNumber > 1 then 0
  else if lineNumber = 0 then s.line1InBothHullPointIndices.length
  else s.line2InBothHullPointIndices.length

/-- An engine state with empty overlap index lists. -/
def s9 : HullOverlapState :=
  { line1InBothHullPointIndices := [], line2InBothHullPointIndices := [],
    line1InPlane2D := [], line2InPlane2D := [], line1InPlane := [], line2InPlane := [],
    hull1PointIndices := [], hull2PointIndices := [] }

/-- Claim C9 counterexample: `getNbPointsInOverlap` does not signal an
invalid-argument error for the out-of-range line number 2: it answers
with the default value 0, which is exactly the value a legitimate call
(line number 0 on an empty overlap) also returns, so the caller cannot
distinguish the invalid call from a genuine empty-overlap answer. -/
theorem c9_nb_points_default_counterexample :
    getNbPointsInOverlap s9 2 = 0 ∧ getNbPointsInOverlap s9 0 = 0 :=
  ⟨by decide, by decide⟩

/-- Claim C9 (amended): for every line number outside 0..1, the four
pointer-returning accessors return a null pointer (no data of any line),
while `getNbPointsInOverlap` returns the default count 0, a value
indistinguishable from a genuine empty-overlap answer rather than an
error signal. -/
theorem c9_accessors_out_of_range (s : HullOverlapState) (n : Int)
    (hn : n < 0 ∨ n > 1) :
    getConstPtrlineInBothHullPointIndices s n = none ∧
    getConstPtrlineInPlane2D s n = none ∧
    getConstPtrlineInPlane3D s n = none ∧
    getConstPtrVerticesIndices s n = none ∧
    getNbPointsInOverlap s n = 0 := by
  unfold getConstPtrlineInBothHullPointIndices getConstPtrlineInPlane2D
    getConstPtrlineInPlane3D getConstPtrVerticesIndices getNbPointsInOverlap
  rw [if_pos hn, if_pos hn, if_pos hn, if_pos hn, if_pos hn]
  exact ⟨rfl, rfl, rfl, rfl, rfl⟩

/-- Witness for `c9_accessors_out_of_range` at line number 2. -/
theorem c9_accessors_out_of_range_witness :
    ((2 : Int) < 0 ∨ (2 : Int) > 1) ∧
    (getConstPtrlineInBothHullPointIndices s9 2 = none ∧
      getConstPtrlineInPlane2D s9 2 = none ∧
      getConstPtrlineInPlane3D s9 2 = none ∧
      getConstPtrVerticesIndices s9 2 = none ∧
      getNbPointsInOverlap s9 2 = 0) :=
  ⟨by decide, c9_accessors_out_of_range s9 2 (by decide)⟩

/-- `std::numeric_limits<double>::max()`: the largest finite double. -/
def dblMaxQ : ℚ := Rat.mk' (Int.ofNat (2 ^ 1024 - 2 ^ 971)) 1 (by decide) (by decide)

/-- `std::numeric_limits<double>::min()`: the smallest positive normal
double, 2 to the power -1022 (not the most negative double). -/
def dblMinQ : ℚ := Rat.mk' 1 (2 ^ 1022) (by decide) (by decide)

/-- The four running extrema of `getMinMaxPointsInOverlapPlane2D`. -/
structure MinMax2D where
  xMin : ℚ
  xMax : ℚ
  yMin : ℚ
  yMax : ℚ
deriving DecidableEq

/-- One iteration of a scan loop of `getMinMaxPointsInOverlapPlane2D`
(HullOverlap.hpp lines 484-514): compare the cloud point selected by one
overlap index against the running extrema. -/
def minMaxStep2D (cloud : List Pt3) (acc : MinMax2D) (i : Nat) : MinMax2D :=
  let p := cloud.getD i default
  { xMin := if p.x < acc.xMin then p.x else acc.xMin,
    xMax := if p.x > acc.xMax then p.x else acc.xMax,
    yMin := if p.y < acc.yMin then p.y else acc.yMin,
    yMax := if p.y > acc.yMax then p.y else acc.yMax }

/-- `getMinMaxPointsInOverlapPlane2D` (HullOverlap.hpp lines 470-529):
when both overlap index lists are non-empty, scan the 2D points they
select, with minima started at `std::numeric_limits<double>::max()` and
maxima started at `std::numeric_limits<double>::min()`, and report the
two corner points (z set to 0); otherwise report nothing and leave the
output parameters untouched. -/
def getMinMaxPointsInOverlapPlane2D (s : HullOverlapState) : Option (Pt3 × Pt3) :=
  if 0 < s.line1InBothHullPointIndices.length ∧ 0 < s.line2InBothHullPointIndices.length then
    let acc0 : MinMax2D := ⟨dblMaxQ, dblMinQ, dblMaxQ, dblMinQ⟩
    let acc1 := s.line1InBothHullPointIndices.foldl (minMaxStep2D s.line1InPlane2D) acc0
    let acc2 := s.line2InBothHullPointIndices.foldl (minMaxStep2D s.line2InPlane2D) acc1
    some (⟨acc2.xMin, acc2.yMin, 0⟩, ⟨acc2.xMax, acc2.yMax, 0⟩)
  else
    none

/-- The six running extrema of `getMinMaxPointsInOverlapPlane3D`. -/
structure MinMax3D where
  xMin : ℚ
  xMax : ℚ
  yMin : ℚ
  yMax : ℚ
  zMin : ℚ
  zMax : ℚ
deriving DecidableEq

/-- One iteration of a scan loop of `getMinMaxPointsInOverlapPlane3D`
(HullOverlap.hpp lines 549-595). -/
def minMaxStep3D (cloud : List Pt3) (acc : MinMax3D) (i : Nat) : MinMax3D :=
  let p := cloud.getD i default
  { xMin := if p.x < acc.xMin then p.x else acc.xMin,
    xMax := if p.x > acc.xMax then p.x else acc.xMax,
    yMin := if p.y < acc.yMin then p.y else acc.yMin,
    yMax := if p.y > acc.yMax then p.y else acc.yMax,
    zMin := if p.z < acc.zMin then p.z else acc.zMin,
    zMax := if p.z > acc.zMax then p.z else acc.zMax }

/-- `getMinMaxPointsInOverlapPlane3D` (HullOverlap.hpp lines 532-610):
like the 2D query but over the projected 3D clouds, including z. -/
def getMinMaxPointsInOverlapPlane3D (s : HullOverlapState) : Option (Pt3 × Pt3) :=
  if 0 < s.line1InBothHullPointIndices.length ∧ 0 < s.line2InBothHullPointIndices.length then
    let acc0 : MinMax3D := ⟨dblMaxQ, dblMinQ, dblMaxQ, dblMinQ, dblMaxQ, dblMinQ⟩
    let acc1 := s.line1InBothHullPointIndices.foldl (minMaxStep3D s.line1InPlane) acc0
    let acc2 := s.line2InBothHullPointIndices.foldl (minMaxStep3D s.line2InPlane) acc1
    some (⟨acc2.xMin, acc2.yMin, acc2.zMin⟩, ⟨acc2.xMax, acc2.yMax, acc2.zMax⟩)
  else
    none

/-- A state whose overlap points all have negative coordinates: line 1
contributes (-1,-1) and line 2 contributes (-2,-2) in the 2D frame. -/
def s7 : HullOverlapState :=
  { line1InBothHullPointIndices := [0], line2InBothHullPointIndices := [0],
    line1InPlane2D := [⟨-1, -1, 0⟩], line2InPlane2D := [⟨-2, -2, 0⟩],
    line1InPlane := [⟨-1, -1, -1⟩], line2InPlane := [⟨-2, -2, -2⟩],
    hull1PointIndices := [], hull2PointIndices := [] }

/-- Claim C7 (code bug evaluation): on overlap points whose coordinates
are all negative, both bounding-box queries report the maximum corner as
the positive constant `std::numeric_limits<double>::min()` (2 to the
power -1022) instead of the true coordinate-wise maximum (-1,-1,...):
the running maxima start at `min()`, the smallest positive double,
rather than at the most negative double, and no negative coordinate can
exceed it.  The minimum corner (-2,-2,...) is correct. -/
theorem c7_minmax_max_start_value_bug :
    getMinMaxPointsInOverlapPlane2D s7 = some (⟨-2, -2, 0⟩, ⟨dblMinQ, dblMinQ, 0⟩) ∧
    getMinMaxPointsInOverlapPlane3D s7 =
      some (⟨-2, -2, -2⟩, ⟨dblMinQ, dblMinQ, dblMinQ⟩) ∧
    (0 : ℚ) < dblMinQ ∧ dblMinQ ≠ (-1 : ℚ) := by
  refine ⟨by decide, by decide, by decide, by decide⟩

end HullOverlapModel
